import Mathlib

/-!
Shallow embedding of the deployment and verification scripts of this
repository (scripts/full_deploy.py and scripts/helpers/custom_verification.py).

Python strings are modelled as Lean strings or as lists of characters
(a Python string is a sequence of code points, as is the data field of a
Lean string).  The substring test written with the Python keyword "in" is
modelled by the boolean function occursIn below, Python str.replace by
pyReplace (leftmost, non-overlapping matches), str.lower by mapping
Char.toLower over the characters, and slicing by List.drop.  Fallible code
is modelled with Except, and functions that may issue HTTP requests return
the number of requests they performed alongside their result.
-/

/-- Boolean test that the list needle occurs contiguously inside the haystack,
mirroring the Python expression needle in haystack on strings. -/
def occursIn (needle : List Char) : List Char → Bool
  | [] => needle.isEmpty
  | a :: l => needle.isPrefixOf (a :: l) || occursIn needle l

theorem occursIn_iff (n : List Char) : ∀ l : List Char, occursIn n l = true ↔ n <:+: l := by
  intro l
  induction l with
  | nil =>
    simp [occursIn, List.isEmpty_iff]
  | cons a l ih =>
    simp [occursIn, ih, List.infix_cons_iff]

/-- String-level wrapper of occursIn: the Python test needle in hay. -/
def substr (needle hay : String) : Bool := occursIn needle.data hay.data

/-- The character data of a string after Python str.lower (code points are
lowered individually, which agrees with Python on the ASCII strings involved). -/
def lowerData (s : String) : List Char := s.data.map Char.toLower

/-- Test that pat occurs in the lowercased identifier, as in the guards of the
license-classification chain of publish_source. -/
def licHas (pat s : String) : Bool := occursIn pat.data (lowerData s)

/-- Test that the lowercased identifier starts with pat, as in the osl guard. -/
def licStarts (pat s : String) : Bool := pat.data.isPrefixOf (lowerData s)

/-- License classification performed inline by publish_source
(custom_verification.py lines 110-138): a chain of case-insensitive substring
tests against the lowered license identifier, first match wins, default 1. -/
def classifyLicense (license_identifier : String) : Nat :=
  if licHas "unlicensed" license_identifier then 2
  else if licHas "mit" license_identifier then 3
  else if licHas "agpl" license_identifier && licHas "3.0" license_identifier then 13
  else if licHas "lgpl" license_identifier then
    (if licHas "2.1" license_identifier then 6
     else if licHas "3.0" license_identifier then 7
     else 1)
  else if licHas "gpl" license_identifier then
    (if licHas "2.0" license_identifier then 4
     else if licHas "3.0" license_identifier then 5
     else 1)
  else if licHas "bsd-2-clause" license_identifier then 8
  else if licHas "bsd-3-clause" license_identifier then 9
  else if licHas "mpl" license_identifier && licHas "2.0" license_identifier then 10
  else if licStarts "osl" license_identifier && licHas "3.0" license_identifier then 11
  else if licHas "apache" license_identifier && licHas "2.0" license_identifier then 12
  else 1

/-- Claim C2 (counterexample): the claim states that the identifier
"GNU GPLv3 only" is mapped to license code 5, but the generic GPL branch only
assigns 5 when "3.0" occurs as a substring, and "GNU GPLv3 only" contains
neither "2.0" nor "3.0", so the code yields the default 1. -/
theorem classifyLicense_gplv3_ne_five : ¬ (classifyLicense "GNU GPLv3 only" = 5) := by
  decide

/-- Claim C2 (amended): license classification is a pure function of the
identifier string: "MIT License" maps to 3, "SPDX: Unlicensed" to 2,
"Weird custom text" to 1 (default), and "GNU GPLv3 only" to 1 as well, because
the GPL branch assigns a code only when "2.0" or "3.0" occurs as a substring. -/
theorem classifyLicense_spec_examples :
    classifyLicense "MIT License" = 3 ∧
    classifyLicense "GNU GPLv3 only" = 1 ∧
    classifyLicense "SPDX: Unlicensed" = 2 ∧
    classifyLicense "Weird custom text" = 1 := by
  decide

/-- Claim C10 (counterexample): the claim states that every identifier
containing "lgpl" but neither "2.1" nor "3.0" is classified with the default
code 1; the identifier "mit lgpl" satisfies these conditions yet is classified
3 by the earlier MIT branch. -/
theorem classifyLicense_mit_lgpl :
    licHas "lgpl" "mit lgpl" = true ∧
    licHas "2.1" "mit lgpl" = false ∧
    licHas "3.0" "mit lgpl" = false ∧
    classifyLicense "mit lgpl" = 3 := by
  decide

/-- Claim C10 (amended): an identifier containing "lgpl" but neither "2.1" nor
"3.0", and matched by no earlier branch of the chain (it contains neither
"unlicensed" nor "mit"), gets the default code 1; an identifier containing
"gpl" but none of "agpl", "lgpl", "2.0", "3.0", "unlicensed", "mit" gets the
default code 1; and an identifier containing "lgpl" is never classified by the
generic GPL branch (its codes 4 and 5 are unreachable), even though "gpl" is a
substring of "lgpl". -/
theorem classifyLicense_version_fallthrough :
    (∀ s : String, licHas "lgpl" s = true → licHas "2.1" s = false →
      licHas "3.0" s = false → licHas "unlicensed" s = false →
      licHas "mit" s = false → classifyLicense s = 1) ∧
    (∀ s : String, licHas "gpl" s = true → licHas "agpl" s = false →
      licHas "lgpl" s = false → licHas "2.0" s = false →
      licHas "3.0" s = false → licHas "unlicensed" s = false →
      licHas "mit" s = false → classifyLicense s = 1) ∧
    (∀ s : String, licHas "lgpl" s = true →
      classifyLicense s ≠ 4 ∧ classifyLicense s ≠ 5) := by
  refine ⟨?_, ?_, ?_⟩
  · intro s h1 h2 h3 h4 h5
    simp [classifyLicense, h1, h2, h3, h4, h5]
  · intro s h1 h2 h3 h4 h5 h6 h7
    simp [classifyLicense, h1, h2, h3, h4, h5, h6, h7]
  · intro s h1
    unfold classifyLicense
    split_ifs <;> simp_all

/-- Witness for the amended claim C10 at concrete identifiers. -/
theorem classifyLicense_version_fallthrough_witness :
    classifyLicense "LGPL" = 1 ∧ classifyLicense "GNU GPLv3 only" = 1 ∧
    (classifyLicense "some LGPL-2.0 text" ≠ 4 ∧ classifyLicense "some LGPL-2.0 text" ≠ 5) :=
  ⟨classifyLicense_version_fallthrough.1 "LGPL" (by decide) (by decide) (by decide)
      (by decide) (by decide),
   classifyLicense_version_fallthrough.2.1 "GNU GPLv3 only" (by decide) (by decide)
      (by decide) (by decide) (by decide) (by decide) (by decide),
   classifyLicense_version_fallthrough.2.2 "some LGPL-2.0 text" (by decide)⟩

/-- Errors raised by the verification helpers, tagged with the Python
exception class raised at the corresponding source line. -/
inductive VerifyError where
  | typeError (msg : String)
  | valueError (msg : String)
  | connectionError (msg : String)
deriving DecidableEq, Repr

/-- The build-artifact fields read by get_verification_info.  The
license_identifier field stands for the license reported by the external
flattener. -/
structure Build where
  language : String
  contractName : String
  compiler_version : String
  optimizer_enabled : Bool
  optimizer_runs : Nat
  license_identifier : String
  bytecode : String
deriving DecidableEq, Repr

/-- The dictionary returned by get_verification_info. -/
structure VerificationInfo where
  contract_name : String
  compiler_version : String
  optimizer_enabled : Bool
  optimizer_runs : Nat
  license_identifier : String
  bytecode_len : Nat
deriving DecidableEq, Repr

/-- Embedding of get_verification_info (custom_verification.py lines 24-77).
The second component counts the HTTP requests the function performs; the
source function performs none.  In the Solidity branch the returned
bytecode_len is the length of the bytecode string of the build artifact. -/
def getVerificationInfo (b : Build) : Except VerifyError VerificationInfo × Nat :=
  if b.language = "Vyper" then
    (Except.error (VerifyError.typeError
      "Etherscan does not support API verification of source code for vyper contracts. You need to verify the source manually"), 0)
  else if b.language = "Solidity" then
    (Except.ok
      { contract_name := b.contractName
        compiler_version := b.compiler_version
        optimizer_enabled := b.optimizer_enabled
        optimizer_runs := b.optimizer_runs
        license_identifier := b.license_identifier
        bytecode_len := b.bytecode.length }, 0)
  else
    (Except.error (VerifyError.typeError
      ("Unsupported language for source verification: " ++ b.language)), 0)

/-- Claim C7: for every build whose language is not Solidity (including Vyper),
get_verification_info raises a TypeError without making any network request. -/
theorem getVerificationInfo_non_solidity (b : Build) (h : b.language ≠ "Solidity") :
    (∃ msg, (getVerificationInfo b).1 = Except.error (VerifyError.typeError msg)) ∧
    (getVerificationInfo b).2 = 0 := by
  unfold getVerificationInfo
  by_cases hv : b.language = "Vyper" <;> simp [hv, h]

/-- Witness for claim C7 at a Vyper build. -/
theorem getVerificationInfo_non_solidity_witness :
    (∃ msg, (getVerificationInfo (Build.mk "Vyper" "C" "0.8.0" true 200 "MIT" "0x")).1 =
      Except.error (VerifyError.typeError msg)) ∧
    (getVerificationInfo (Build.mk "Vyper" "C" "0.8.0" true 200 "MIT" "0x")).2 = 0 :=
  getVerificationInfo_non_solidity (Build.mk "Vyper" "C" "0.8.0" true 200 "MIT" "0x")
    (by decide)

/-- One transaction record of the txlist answer, of which only the input
field is read. -/
structure TxRecord where
  input : String
deriving DecidableEq, Repr

/-- One response of the explorer txlist endpoint: the HTTP status code, the
parsed status integer, the message field, and the result field, which the
explorer serves either as an error string (result_msg) or as a list of
transaction records (result_txs). -/
structure TxResp where
  status_code : Nat
  status : Int
  message : String
  result_msg : String
  result_txs : List TxRecord
deriving DecidableEq, Repr

/-- The indexing poll loop of publish_source (custom_verification.py lines
150-170), consuming one explorer response per HTTP request.  The counter i
starts at 0 and the loop gives up once i has reached 10, so at most 11
requests are issued.  The second component is the number of requests made. -/
def pollTxAux : List TxResp → Nat → Except VerifyError TxResp × Nat
  | [], _ => (Except.error (VerifyError.connectionError "no response"), 0)
  | r :: rest, i =>
    if r.status_code ≠ 200 then
      (Except.error (VerifyError.connectionError "non-200 status when querying explorer"), 1)
    else if r.status = 1 then
      (Except.ok r, 1)
    else if 10 ≤ i then
      (Except.error (VerifyError.valueError ("API request failed with: " ++ r.result_msg)), 1)
    else
      let p := pollTxAux rest (i + 1)
      (p.1, p.2 + 1)

/-- The indexing poll entered with the attempt counter at 0. -/
def pollTxlist (responses : List TxResp) : Except VerifyError TxResp × Nat :=
  pollTxAux responses 0

theorem pollTxAux_cons_retry (r : TxResp) (rest2 : List TxResp) (i : Nat)
    (h200 : r.status_code = 200) (h1 : r.status ≠ 1) (hi : ¬ 10 ≤ i) :
    pollTxAux (r :: rest2) i =
      ((pollTxAux rest2 (i + 1)).1, (pollTxAux rest2 (i + 1)).2 + 1) := by
  conv_lhs => rw [pollTxAux]
  simp [h200, h1, hi]

theorem pollTxAux_all_fail (rest : List TxResp) :
    ∀ (rs : List TxResp) (i : Nat) (hne : rs ≠ [])
      (hall : ∀ r ∈ rs, r.status_code = 200 ∧ r.status ≠ 1)
      (hlen : rs.length + i = 11),
    pollTxAux (rs ++ rest) i =
      (Except.error (VerifyError.valueError
        ("API request failed with: " ++ (rs.getLast hne).result_msg)),
       rs.length) := by
  intro rs
  induction rs with
  | nil => intro i hne; exact absurd rfl hne
  | cons r rs ih =>
    intro i hne hall hlen
    have hr := hall r (by simp)
    cases rs with
    | nil =>
      have hi : i = 10 := by simp at hlen; omega
      subst hi
      simp [pollTxAux, hr.1, hr.2]
    | cons q rs2 =>
      have hi : ¬ 10 ≤ i := by simp at hlen; omega
      have hrec := ih (i + 1) (by simp)
        (fun x hx => hall x (List.mem_cons_of_mem r hx)) (by simp at hlen ⊢; omega)
      rw [List.cons_append, pollTxAux_cons_retry r _ i hr.1 hr.2 hi, hrec]
      simp [List.getLast_cons]

/-- Claim C1: the indexing poll issues exactly 4 requests and succeeds when the
first three responses carry status different from 1 and the fourth carries
status 1, and it issues exactly 11 requests (the initial one plus 10 retries)
and fails with a ValueError surfacing the last response's result message when
no response ever carries status 1. -/
theorem pollTxlist_counts :
    (∀ (r1 r2 r3 r4 : TxResp) (rest : List TxResp),
      (∀ r ∈ [r1, r2, r3], r.status_code = 200 ∧ r.status ≠ 1) →
      r4.status_code = 200 → r4.status = 1 →
      pollTxlist (r1 :: r2 :: r3 :: r4 :: rest) = (Except.ok r4, 4)) ∧
    (∀ (rs : List TxResp) (rest : List TxResp) (hne : rs ≠ []),
      rs.length = 11 →
      (∀ r ∈ rs, r.status_code = 200 ∧ r.status ≠ 1) →
      pollTxlist (rs ++ rest) =
        (Except.error (VerifyError.valueError
          ("API request failed with: " ++ (rs.getLast hne).result_msg)), 11)) := by
  constructor
  · intro r1 r2 r3 r4 rest hall h200 h1
    have e1 := hall r1 (by simp)
    have e2 := hall r2 (by simp)
    have e3 := hall r3 (by simp)
    simp [pollTxlist, pollTxAux, e1.1, e1.2, e2.1, e2.2, e3.1, e3.2, h200, h1]
  · intro rs rest hne hlen hall
    have := pollTxAux_all_fail rest rs 0 hne hall (by omega)
    simpa [pollTxlist, hlen] using this

/-- A txlist response with status 0, as served while the transaction is not
yet indexed. -/
def txRespPending : TxResp := TxResp.mk 200 0 "NOTOK" "Max rate limit reached" []

/-- A txlist response with status 1 carrying one indexed transaction. -/
def txRespFound : TxResp :=
  TxResp.mk 200 1 "OK" "" [TxRecord.mk "0xaaaaaaaaaabeef"]

/-- Witness for claim C1: three pending responses followed by a found one give
four requests and success; eleven pending responses give eleven requests and
the ValueError surfacing the last result message. -/
theorem pollTxlist_counts_witness :
    pollTxlist [txRespPending, txRespPending, txRespPending, txRespFound] =
      (Except.ok txRespFound, 4) ∧
    pollTxlist ([txRespPending, txRespPending, txRespPending, txRespPending,
        txRespPending, txRespPending, txRespPending, txRespPending, txRespPending,
        txRespPending, txRespPending] ++ []) =
      (Except.error (VerifyError.valueError
        ("API request failed with: " ++ "Max rate limit reached")), 11) :=
  ⟨pollTxlist_counts.1 txRespPending txRespPending txRespPending txRespFound []
      (by decide) (by decide) (by decide),
   pollTxlist_counts.2 [txRespPending, txRespPending, txRespPending, txRespPending,
        txRespPending, txRespPending, txRespPending, txRespPending, txRespPending,
        txRespPending, txRespPending] [] (by decide) (by decide) (by decide)⟩

/-- Constructor-argument selection of publish_source (custom_verification.py
lines 172-175): when the final txlist response carries message OK, the
constructor arguments
are the input of its first transaction record with the first
bytecode_len + 2 characters dropped; otherwise the empty string is used.
Indexing an empty record list raises, as Python indexing does. -/
def constructorArguments (bytecode_len : Nat) (data : TxResp) : Except VerifyError String :=
  if data.message = "OK" then
    match data.result_txs with
    | [] => Except.error (VerifyError.typeError "IndexError: list index out of range")
    | tx :: _ => Except.ok (String.mk (tx.input.data.drop (bytecode_len + 2)))
  else Except.ok ""

/-- Claim C9: the sliced suffix of the transaction input is used only when the
message field of the terminating txlist response equals OK; any other message
yields an empty constructor-argument string. -/
theorem constructorArguments_message_gate (bytecode_len : Nat) (data : TxResp) :
    (data.message ≠ "OK" → constructorArguments bytecode_len data = Except.ok "") ∧
    (∀ tx rest2, data.message = "OK" → data.result_txs = tx :: rest2 →
      constructorArguments bytecode_len data =
        Except.ok (String.mk (tx.input.data.drop (bytecode_len + 2)))) := by
  constructor
  · intro h
    simp [constructorArguments, h]
  · intro tx rest2 hOK htxs
    simp [constructorArguments, hOK, htxs]

/-- Witness for claim C9 at a status-1 response with message NOTOK and at one
with message OK. -/
theorem constructorArguments_message_gate_witness :
    constructorArguments 10 (TxResp.mk 200 1 "NOTOK" "" [TxRecord.mk "0xaaaaaaaaaabeef"]) =
      Except.ok "" ∧
    constructorArguments 10 txRespFound =
      Except.ok (String.mk ("0xaaaaaaaaaabeef".data.drop 12)) :=
  ⟨(constructorArguments_message_gate 10
      (TxResp.mk 200 1 "NOTOK" "" [TxRecord.mk "0xaaaaaaaaaabeef"])).1 (by decide),
   (constructorArguments_message_gate 10 txRespFound).2 (TxRecord.mk "0xaaaaaaaaaabeef") []
      (by decide) (by decide)⟩

/-- Claim C3: for every accepted transaction the extracted constructor
arguments are the suffix of the transaction input starting at character offset
bytecode_len + 2, where bytecode_len is the length of the bytecode field of
the build artifact as reported by get_verification_info; concretely, with
bytecode_len 10 and input 0x followed by ten characters a and the tail beef,
the extracted arguments are beef. -/
theorem constructorArguments_slicing :
    (∀ (b : Build) (info : VerificationInfo) (data : TxResp) (tx : TxRecord)
      (rest2 : List TxRecord),
      b.language = "Solidity" →
      (getVerificationInfo b).1 = Except.ok info →
      data.message = "OK" → data.result_txs = tx :: rest2 →
      info.bytecode_len = b.bytecode.length ∧
      constructorArguments info.bytecode_len data =
        Except.ok (String.mk (tx.input.data.drop (b.bytecode.length + 2)))) ∧
    constructorArguments 10 txRespFound = Except.ok "beef" := by
  constructor
  · intro b info data tx rest2 hlang hinfo hOK htxs
    have hlen : info.bytecode_len = b.bytecode.length := by
      unfold getVerificationInfo at hinfo
      by_cases hv : b.language = "Vyper"
      · rw [hlang] at hv; exact absurd hv (by decide)
      · simp [hv, hlang] at hinfo
        rw [← hinfo]
    refine ⟨hlen, ?_⟩
    rw [hlen]
    simp [constructorArguments, hOK, htxs]
  · rfl

/-- Witness for claim C3, tying the slicing to a Solidity build whose bytecode
field has length 10. -/
theorem constructorArguments_slicing_witness :
    ((getVerificationInfo (Build.mk "Solidity" "C" "0.8.0" true 200 "MIT" "0123456789")).1 =
      Except.ok (VerificationInfo.mk "C" "0.8.0" true 200 "MIT" 10)) ∧
    constructorArguments 10 txRespFound =
      Except.ok (String.mk ("0xaaaaaaaaaabeef".data.drop (10 + 2))) ∧
    constructorArguments 10 txRespFound = Except.ok "beef" :=
  ⟨by rfl,
   ((constructorArguments_slicing.1 (Build.mk "Solidity" "C" "0.8.0" true 200 "MIT" "0123456789")
      (VerificationInfo.mk "C" "0.8.0" true 200 "MIT" 10) txRespFound
      (TxRecord.mk "0xaaaaaaaaaabeef") [] (by decide) (by rfl) (by decide) (by decide)).2),
   constructorArguments_slicing.2⟩

/-- One response of the explorer checkverifystatus endpoint: the HTTP status
code and the message and result fields of the parsed body. -/
structure StatusResp where
  status_code : Nat
  message : String
  result : String
deriving DecidableEq, Repr

/-- The verification-status poll loop of publish_source
(custom_verification.py lines 212-227), consuming one response per HTTP
request.  The result carries the returned boolean, the number of requests
made, and the seconds slept inside the loop (ten more per repeated
iteration). -/
def pollStatusAux : List StatusResp → Except VerifyError Bool × Nat × Nat
  | [] => (Except.error (VerifyError.connectionError "no response"), 0, 0)
  | r :: rest =>
    if r.status_code ≠ 200 then
      (Except.error (VerifyError.connectionError "non-200 status when querying explorer"), 1, 0)
    else if r.result = "Pending in queue" then
      let p := pollStatusAux rest
      (p.1, p.2.1 + 1, p.2.2 + 10)
    else
      (Except.ok (r.message == "OK"), 1, 0)

/-- Claim C6: given an HTTP-200 response, the status poll loops again, after a
further ten-second delay, exactly when the result field equals the string
Pending in queue; any other response is terminal, and the returned boolean is
true exactly when the terminal response's message field equals OK. -/
theorem pollStatusAux_loop_characterisation (r : StatusResp) (rest : List StatusResp)
    (h200 : r.status_code = 200) :
    (r.result = "Pending in queue" →
      pollStatusAux (r :: rest) =
        ((pollStatusAux rest).1, (pollStatusAux rest).2.1 + 1,
          (pollStatusAux rest).2.2 + 10)) ∧
    (r.result ≠ "Pending in queue" →
      pollStatusAux (r :: rest) = (Except.ok (r.message == "OK"), 1, 0) ∧
      ((pollStatusAux (r :: rest)).1 = Except.ok true ↔ r.message = "OK")) := by
  constructor
  · intro hpend
    conv_lhs => rw [pollStatusAux]
    simp [h200, hpend]
  · intro hterm
    have hstep : pollStatusAux (r :: rest) = (Except.ok (r.message == "OK"), 1, 0) := by
      conv_lhs => rw [pollStatusAux]
      simp [h200, hterm]
    refine ⟨hstep, ?_⟩
    rw [hstep]
    simp

/-- Witness for claim C6 at a pending response and at a terminal failure
response. -/
theorem pollStatusAux_loop_characterisation_witness :
    pollStatusAux [StatusResp.mk 200 "NOTOK" "Pending in queue",
        StatusResp.mk 200 "NOTOK" "Fail - Unable to verify"] =
      ((pollStatusAux [StatusResp.mk 200 "NOTOK" "Fail - Unable to verify"]).1,
        (pollStatusAux [StatusResp.mk 200 "NOTOK" "Fail - Unable to verify"]).2.1 + 1,
        (pollStatusAux [StatusResp.mk 200 "NOTOK" "Fail - Unable to verify"]).2.2 + 10) ∧
    (pollStatusAux [StatusResp.mk 200 "OK" "Pass - Verified"] =
      (Except.ok ("OK" == "OK"), 1, 0) ∧
      ((pollStatusAux [StatusResp.mk 200 "OK" "Pass - Verified"]).1 = Except.ok true ↔
        ("OK" : String) = "OK")) :=
  ⟨(pollStatusAux_loop_characterisation (StatusResp.mk 200 "NOTOK" "Pending in queue")
      [StatusResp.mk 200 "NOTOK" "Fail - Unable to verify"] (by decide)).1 (by decide),
   (pollStatusAux_loop_characterisation (StatusResp.mk 200 "OK" "Pass - Verified")
      [] (by decide)).2 (by decide)⟩

/-- The explorer token-name table of the host library, modelled as an
association list from explorer host fragments to environment-variable names,
and the credential-resolution prologue of publish_source
(custom_verification.py lines 85-103).  The first table entry whose key
occurs in the explorer URL names the environment variable to read. -/
def resolveEnvToken (tokens : List (String × String)) (url : String) : Option String :=
  (tokens.find? (fun kv => occursIn kv.1.data url.data)).map (fun kv => kv.2)

/-- The message of the ValueError raised when the API token environment
variable is unset, naming the expected variable after a dollar sign. -/
def apiTokenMissingMessage (host env_token : String) : String :=
  "An API token is required to verify contract source code. Visit https://" ++ host ++
    "/ to obtain a token, and then store it as the environment variable $" ++ env_token

/-- The prologue of publish_source before any HTTP request: resolve the
explorer URL, the token name and the API key, failing with a ValueError when
the explorer is unknown or the environment variable is unset or empty (Python
truthiness of os.getenv).  The second component is the number of HTTP
requests performed, which is zero on every path. -/
def publishSourcePrelude (tokens : List (String × String)) (explorer_url : Option String)
    (env : String → Option String) (host : String) : Except VerifyError String × Nat :=
  match explorer_url with
  | none => (Except.error (VerifyError.valueError "Explorer API not set for this network"), 0)
  | some url =>
    match resolveEnvToken tokens url with
    | none =>
      (Except.error (VerifyError.valueError
        ("Publishing source is only supported on " ++
          String.intercalate ", " (tokens.map (fun kv => kv.1)) ++
          ",change the Explorer API")), 0)
    | some env_token =>
      match env env_token with
      | some key =>
        if key = "" then
          (Except.error (VerifyError.valueError (apiTokenMissingMessage host env_token)), 0)
        else (Except.ok key, 0)
      | none =>
        (Except.error (VerifyError.valueError (apiTokenMissingMessage host env_token)), 0)

theorem substr_suffix (tok pre : String) : substr tok (pre ++ tok) = true := by
  rw [substr, occursIn_iff]
  rw [String.data_append]
  exact (List.suffix_append pre.data tok.data).isInfix

/-- Claim C8: the explorer token name is resolved by substring match of the
known explorer host fragments against the explorer URL of the active network,
and when the named environment variable is unset the prologue raises a
ValueError whose message names that variable, without having issued any HTTP
request. -/
theorem publishSourcePrelude_missing_token :
    (∀ (tokens : List (String × String)) (url tok : String),
      resolveEnvToken tokens url = some tok →
      ∃ k, (k, tok) ∈ tokens ∧ substr k url = true) ∧
    (∀ (tokens : List (String × String)) (url : String) (env : String → Option String)
      (host tok : String),
      resolveEnvToken tokens url = some tok →
      env tok = none →
      (∃ msg, (publishSourcePrelude tokens (some url) env host).1 =
        Except.error (VerifyError.valueError msg) ∧ substr tok msg = true) ∧
      (publishSourcePrelude tokens (some url) env host).2 = 0) := by
  constructor
  · intro tokens url tok hres
    unfold resolveEnvToken at hres
    match hfind : tokens.find? (fun kv => occursIn kv.1.data url.data) with
    | none => rw [hfind] at hres; simp at hres
    | some kv =>
      rw [hfind] at hres
      simp at hres
      refine ⟨kv.1, ?_, ?_⟩
      · rw [← hres]
        exact List.mem_of_find?_eq_some hfind
      · have hp := List.find?_some hfind
        simpa [substr] using hp
  · intro tokens url env host tok hres henv
    have hred : publishSourcePrelude tokens (some url) env host =
        (Except.error (VerifyError.valueError (apiTokenMissingMessage host tok)), 0) := by
      simp only [publishSourcePrelude, hres, henv]
    rw [hred]
    exact ⟨⟨apiTokenMissingMessage host tok, rfl, substr_suffix tok _⟩, rfl⟩

/-- Witness for claim C8 with a one-entry token table and an empty
environment. -/
theorem publishSourcePrelude_missing_token_witness :
    (∃ k, (k, "ETHERSCAN_TOKEN") ∈ [("etherscan", "ETHERSCAN_TOKEN")] ∧
      substr k "https://api.etherscan.io/api" = true) ∧
    ((∃ msg, (publishSourcePrelude [("etherscan", "ETHERSCAN_TOKEN")]
        (some "https://api.etherscan.io/api") (fun _ => none) "etherscan.io").1 =
      Except.error (VerifyError.valueError msg) ∧ substr "ETHERSCAN_TOKEN" msg = true) ∧
    (publishSourcePrelude [("etherscan", "ETHERSCAN_TOKEN")]
        (some "https://api.etherscan.io/api") (fun _ => none) "etherscan.io").2 = 0) :=
  ⟨publishSourcePrelude_missing_token.1 [("etherscan", "ETHERSCAN_TOKEN")]
      "https://api.etherscan.io/api" "ETHERSCAN_TOKEN" (by rfl),
   publishSourcePrelude_missing_token.2 [("etherscan", "ETHERSCAN_TOKEN")]
      "https://api.etherscan.io/api" (fun _ => none) "etherscan.io" "ETHERSCAN_TOKEN"
      (by rfl) rfl⟩

/-- One deployer-signed transaction of full_deploy.py main, recorded with the
nonce it is submitted with. -/
structure DeployStep where
  name : String
  nonce : Nat
deriving DecidableEq, Repr

/-- The outcome of the deployer-side sequencing of full_deploy.py main: the
ordered list of deployer transactions and the precomputed nonces and forward
addresses of the three forward-referenced contracts. -/
structure MainTrace where
  steps : List DeployStep
  followNFTNonce : Nat
  collectNFTNonce : Nat
  hubProxyNonce : Nat
  followNFTImplAddress : String
  collectNFTImplAddress : String
  hubProxyAddress : String
deriving DecidableEq, Repr

/-- Embedding of the deployer-nonce threading of full_deploy.py main (lines
68-279): the counter starts at the chain-reported transaction count n0, every
deployment uses the current counter and increments it by one, and after the
fourth deployment the script precomputes the nonces of the FollowNFT,
CollectNFT and hub-proxy deployments as counter plus one, two and three, and
derives their forward addresses through get_deployment_address, modelled by
the abstract function addressOf from nonces to addresses. -/
def mainDeployerTrace (addressOf : Nat → String) (n0 : Nat) : MainTrace :=
  let deployerNonce := n0
  let s1 := DeployStep.mk "ModuleGlobals" deployerNonce
  let deployerNonce := deployerNonce + 1
  let s2 := DeployStep.mk "PublishingLogic" deployerNonce
  let deployerNonce := deployerNonce + 1
  let s3 := DeployStep.mk "InteractionLogic" deployerNonce
  let deployerNonce := deployerNonce + 1
  let s4 := DeployStep.mk "ProfileTokenURILogic" deployerNonce
  let deployerNonce := deployerNonce + 1
  let followNFTNonce := deployerNonce + 1
  let collectNFTNonce := deployerNonce + 2
  let hubProxyNonce := deployerNonce + 3
  let followNFTImplAddress := addressOf followNFTNonce
  let collectNFTImplAddress := addressOf collectNFTNonce
  let hubProxyAddress := addressOf hubProxyNonce
  let s5 := DeployStep.mk "LensHub" deployerNonce
  let deployerNonce := deployerNonce + 1
  let s6 := DeployStep.mk "FollowNFT" deployerNonce
  let deployerNonce := deployerNonce + 1
  let s7 := DeployStep.mk "CollectNFT" deployerNonce
  let deployerNonce := deployerNonce + 1
  let s8 := DeployStep.mk "TransparentUpgradeableProxy" deployerNonce
  let deployerNonce := deployerNonce + 1
  let s9 := DeployStep.mk "LensPeriphery" deployerNonce
  let deployerNonce := deployerNonce + 1
  let s10 := DeployStep.mk "Currency" deployerNonce
  let deployerNonce := deployerNonce + 1
  let s11 := DeployStep.mk "FeeCollectModule" deployerNonce
  let deployerNonce := deployerNonce + 1
  let s12 := DeployStep.mk "LimitedFeeCollectModule" deployerNonce
  let deployerNonce := deployerNonce + 1
  let s13 := DeployStep.mk "TimedFeeCollectModule" deployerNonce
  let deployerNonce := deployerNonce + 1
  let s14 := DeployStep.mk "LimitedTimedFeeCollectModule" deployerNonce
  let deployerNonce := deployerNonce + 1
  let s15 := DeployStep.mk "RevertCollectModule" deployerNonce
  let deployerNonce := deployerNonce + 1
  let s16 := DeployStep.mk "FreeCollectModule" deployerNonce
  let deployerNonce := deployerNonce + 1
  let s17 := DeployStep.mk "FeeFollowModule" deployerNonce
  let deployerNonce := deployerNonce + 1
  let s18 := DeployStep.mk "ProfileFollowModule" deployerNonce
  let deployerNonce := deployerNonce + 1
  let s19 := DeployStep.mk "RevertFollowModule" deployerNonce
  let deployerNonce := deployerNonce + 1
  let s20 := DeployStep.mk "FollowerOnlyReferenceModule" deployerNonce
  let deployerNonce := deployerNonce + 1
  let s21 := DeployStep.mk "UIDataProvider" deployerNonce
  let deployerNonce := deployerNonce + 1
  let s22 := DeployStep.mk "ProfileCreationProxy" deployerNonce
  { steps := [s1, s2, s3, s4, s5, s6, s7, s8, s9, s10, s11,
              s12, s13, s14, s15, s16, s17, s18, s19, s20, s21, s22]
    followNFTNonce := followNFTNonce
    collectNFTNonce := collectNFTNonce
    hubProxyNonce := hubProxyNonce
    followNFTImplAddress := followNFTImplAddress
    collectNFTImplAddress := collectNFTImplAddress
    hubProxyAddress := hubProxyAddress }

/-- Claim C4: in main the k-th deployer transaction is sent with nonce equal
to the initial transaction count plus k minus one (zero-indexed here: step k
carries nonce n0 plus k), and the precomputed nonces n0 plus 5, 6 and 7 equal
the nonces later consumed by the FollowNFT, CollectNFT and hub-proxy
deployments, so each precomputed forward address equals the address the
chain derives for the deployer at the nonce actually consumed by that
deployment, with the chain's address derivation modelled by the abstract
function addressOf. -/
theorem mainDeployerTrace_nonces (addressOf : Nat → String) (n0 : Nat) :
    (∀ k (h : k < (mainDeployerTrace addressOf n0).steps.length),
      ((mainDeployerTrace addressOf n0).steps.get ⟨k, h⟩).nonce = n0 + k) ∧
    (mainDeployerTrace addressOf n0).followNFTNonce = n0 + 5 ∧
    (mainDeployerTrace addressOf n0).collectNFTNonce = n0 + 6 ∧
    (mainDeployerTrace addressOf n0).hubProxyNonce = n0 + 7 ∧
    (∃ h5 : 5 < (mainDeployerTrace addressOf n0).steps.length,
      ((mainDeployerTrace addressOf n0).steps.get ⟨5, h5⟩).name = "FollowNFT" ∧
      ((mainDeployerTrace addressOf n0).steps.get ⟨5, h5⟩).nonce =
        (mainDeployerTrace addressOf n0).followNFTNonce ∧
      (mainDeployerTrace addressOf n0).followNFTImplAddress =
        addressOf (((mainDeployerTrace addressOf n0).steps.get ⟨5, h5⟩).nonce)) ∧
    (∃ h6 : 6 < (mainDeployerTrace addressOf n0).steps.length,
      ((mainDeployerTrace addressOf n0).steps.get ⟨6, h6⟩).name = "CollectNFT" ∧
      ((mainDeployerTrace addressOf n0).steps.get ⟨6, h6⟩).nonce =
        (mainDeployerTrace addressOf n0).collectNFTNonce ∧
      (mainDeployerTrace addressOf n0).collectNFTImplAddress =
        addressOf (((mainDeployerTrace addressOf n0).steps.get ⟨6, h6⟩).nonce)) ∧
    (∃ h7 : 7 < (mainDeployerTrace addressOf n0).steps.length,
      ((mainDeployerTrace addressOf n0).steps.get ⟨7, h7⟩).name =
        "TransparentUpgradeableProxy" ∧
      ((mainDeployerTrace addressOf n0).steps.get ⟨7, h7⟩).nonce =
        (mainDeployerTrace addressOf n0).hubProxyNonce ∧
      (mainDeployerTrace addressOf n0).hubProxyAddress =
        addressOf (((mainDeployerTrace addressOf n0).steps.get ⟨7, h7⟩).nonce)) := by
  refine ⟨?_, rfl, rfl, rfl, ⟨by simp [mainDeployerTrace], rfl, rfl, rfl⟩,
    ⟨by simp [mainDeployerTrace], rfl, rfl, rfl⟩,
    ⟨by simp [mainDeployerTrace], rfl, rfl, rfl⟩⟩
  intro k h
  have hlen : (mainDeployerTrace addressOf n0).steps.length = 22 := rfl
  rw [hlen] at h
  interval_cases k <;> rfl

/-- Witness for claim C4 at the zero nonce and a concrete address
derivation. -/
theorem mainDeployerTrace_nonces_witness :
    ((mainDeployerTrace (fun n => String.mk (Nat.toDigits 16 n)) 3).steps.get
        ⟨0, by simp [mainDeployerTrace]⟩).nonce = 3 + 0 :=
  (mainDeployerTrace_nonces (fun n => String.mk (Nat.toDigits 16 n)) 3).1 0
    (by simp [mainDeployerTrace])

/-- Fuel-bounded core of Python str.split with a non-empty separator: scan
left to right, cut at each leftmost separator occurrence and continue right
after it.  Every call made through pySplit supplies more fuel than the length
of the scanned list, so the out-of-fuel branch is never reached. -/
def pySplitF (sep : List Char) : Nat → List Char → List (List Char)
  | 0, l => [l]
  | _ + 1, [] => [[]]
  | fuel + 1, a :: l =>
    if sep.isPrefixOf (a :: l) then
      [] :: pySplitF sep fuel ((a :: l).drop sep.length)
    else
      match pySplitF sep fuel l with
      | [] => [[a]]
      | c :: cs => (a :: c) :: cs

/-- Python str.split with a non-empty separator. -/
def pySplit (sep l : List Char) : List (List Char) := pySplitF sep (l.length + 1) l

/-- Python str.join: interleave the separator between consecutive chunks. -/
def pyJoin (sep : List Char) : List (List Char) → List Char
  | [] => []
  | [c] => c
  | c :: cs => c ++ sep ++ pyJoin sep cs

/-- Python str.replace with a non-empty pattern: every leftmost,
non-overlapping occurrence of old is replaced by new, which is the same as
splitting on old and joining with new. -/
def pyReplace (old new l : List Char) : List Char := pyJoin new (pySplit old l)

theorem pySplitF_cons_pos (sep : List Char) (fuel : Nat) (a : Char) (l : List Char)
    (hp : sep.isPrefixOf (a :: l) = true) :
    pySplitF sep (fuel + 1) (a :: l) =
      [] :: pySplitF sep fuel ((a :: l).drop sep.length) := by
  simp [pySplitF, hp]

theorem pySplitF_of_absent (sep : List Char) :
    ∀ (fuel : Nat) (l : List Char), l.length < fuel → ¬ sep <:+: l →
      pySplitF sep fuel l = [l] := by
  intro fuel
  induction fuel with
  | zero => intro l hlen; omega
  | succ fuel ih =>
    intro l hlen hinf
    cases l with
    | nil => rfl
    | cons a l =>
      have hpre : sep.isPrefixOf (a :: l) = false := by
        rw [Bool.eq_false_iff]
        intro hp
        exact hinf ( List.isPrefixOf_iff_prefix.mp hp).isInfix
      have hrec := ih l (by simp at hlen; omega) (fun hh => hinf ( List.infix_cons hh))
      simp [pySplitF, hpre, hrec]

theorem pySplitF_headChunk (sep : List Char) :
    ∀ (fuel : Nat) (l : List Char), l.length < fuel →
      ∃ c cs, pySplitF sep fuel l = c :: cs ∧ c <+: l := by
  intro fuel
  induction fuel with
  | zero => intro l hlen; omega
  | succ fuel ih =>
    intro l hlen
    cases l with
    | nil => exact ⟨[], [], rfl, List.nil_prefix⟩
    | cons a l =>
      by_cases hp : sep.isPrefixOf (a :: l)
      · exact ⟨[], pySplitF sep fuel ((a :: l).drop sep.length),
          by simp [pySplitF, hp], List.nil_prefix⟩
      · obtain ⟨c, cs, heq, hpre⟩ := ih l (by simp at hlen; omega)
        refine ⟨a :: c, cs, ?_, List.cons_prefix_cons.mpr ⟨rfl, hpre⟩⟩
        simp [pySplitF, hp, heq]

theorem pySplitF_chunks_clean (sep : List Char) (hsep : sep ≠ []) :
    ∀ (fuel : Nat) (l : List Char), l.length < fuel →
      ∀ c ∈ pySplitF sep fuel l, ¬ sep <:+: c := by
  intro fuel
  induction fuel with
  | zero => intro l hlen; omega
  | succ fuel ih =>
    intro l hlen c hc
    cases l with
    | nil =>
      have : c = [] := by simpa [pySplitF] using hc
      rw [this]
      simp [hsep]
    | cons a l =>
      by_cases hp : sep.isPrefixOf (a :: l)
      · rw [pySplitF_cons_pos sep fuel a l hp] at hc
        rcases List.mem_cons.mp hc with rfl | hmem
        · simp [hsep]
        · have hd : ((a :: l).drop sep.length).length < fuel := by
            have hs1 : 1 ≤ sep.length := by
              cases sep with
              | nil => exact absurd rfl hsep
              | cons x xs => simp
            simp at hlen ⊢
            omega
          exact ih ((a :: l).drop sep.length) hd c hmem
      · obtain ⟨c0, cs, heq, hpre⟩ := pySplitF_headChunk sep fuel l (by simp at hlen; omega)
        have hstep : pySplitF sep (fuel + 1) (a :: l) = (a :: c0) :: cs := by
          simp [pySplitF, hp, heq]
        rw [hstep] at hc
        rcases List.mem_cons.mp hc with rfl | hmem
        · intro hinf
          rcases List.infix_cons_iff.mp hinf with hpre2 | hinf2
          · have : sep <+: a :: l :=
              hpre2.trans (List.cons_prefix_cons.mpr ⟨rfl, hpre⟩)
            exact hp ( List.isPrefixOf_iff_prefix.mpr this)
          · exact ih l (by simp at hlen; omega) c0 (heq ▸ List.mem_cons_self c0 cs) hinf2
        · exact ih l (by simp at hlen; omega) c (heq ▸ List.mem_cons_of_mem c0 hmem)

theorem pySplitF_chunks_within (sep : List Char) (hsep : sep ≠ []) :
    ∀ (fuel : Nat) (l : List Char), l.length < fuel →
      ∀ c ∈ pySplitF sep fuel l, c <:+: l := by
  intro fuel
  induction fuel with
  | zero => intro l hlen; omega
  | succ fuel ih =>
    intro l hlen c hc
    cases l with
    | nil =>
      have : c = [] := by simpa [pySplitF] using hc
      simp [this]
    | cons a l =>
      by_cases hp : sep.isPrefixOf (a :: l)
      · rw [pySplitF_cons_pos sep fuel a l hp] at hc
        rcases List.mem_cons.mp hc with rfl | hmem
        · exact List.nil_prefix.isInfix
        · have hd : ((a :: l).drop sep.length).length < fuel := by
            have hs1 : 1 ≤ sep.length := by
              cases sep with
              | nil => exact absurd rfl hsep
              | cons x xs => simp
            simp at hlen ⊢
            omega
          have := ih ((a :: l).drop sep.length) hd c hmem
          exact this.trans (List.drop_suffix sep.length (a :: l)).isInfix
      · obtain ⟨c0, cs, heq, hpre⟩ := pySplitF_headChunk sep fuel l (by simp at hlen; omega)
        have hstep : pySplitF sep (fuel + 1) (a :: l) = (a :: c0) :: cs := by
          simp [pySplitF, hp, heq]
        rw [hstep] at hc
        rcases List.mem_cons.mp hc with rfl | hmem
        · exact (List.cons_prefix_cons.mpr ⟨rfl, hpre⟩).isInfix
        · exact List.infix_cons
            (ih l (by simp at hlen; omega) c (heq ▸ List.mem_cons_of_mem c0 hmem))

theorem pyJoin_pySplitF (sep : List Char) (hsep : sep ≠ []) :
    ∀ (fuel : Nat) (l : List Char), l.length < fuel →
      pyJoin sep (pySplitF sep fuel l) = l := by
  intro fuel
  induction fuel with
  | zero => intro l hlen; omega
  | succ fuel ih =>
    intro l hlen
    cases l with
    | nil => rfl
    | cons a l =>
      by_cases hp : sep.isPrefixOf (a :: l)
      · rw [pySplitF_cons_pos sep fuel a l hp]
        have hd : ((a :: l).drop sep.length).length < fuel := by
          have hs1 : 1 ≤ sep.length := by
            cases sep with
            | nil => exact absurd rfl hsep
            | cons x xs => simp
          simp at hlen ⊢
          omega
        obtain ⟨c, cs, heq, _⟩ := pySplitF_headChunk sep fuel ((a :: l).drop sep.length) hd
        have hjoin := ih ((a :: l).drop sep.length) hd
        rw [heq] at hjoin ⊢
        have : pyJoin sep ([] :: c :: cs) = sep ++ pyJoin sep (c :: cs) := by
          simp [pyJoin]
        rw [this, hjoin]
        exact List.prefix_iff_eq_append.mp ( List.isPrefixOf_iff_prefix.mp hp)
      · obtain ⟨c0, cs, heq, _⟩ := pySplitF_headChunk sep fuel l (by simp at hlen; omega)
        have hstep : pySplitF sep (fuel + 1) (a :: l) = (a :: c0) :: cs := by
          simp [pySplitF, hp, heq]
        rw [hstep]
        have hjoin := ih l (by simp at hlen; omega)
        rw [heq] at hjoin
        cases cs with
        | nil =>
          have : pyJoin sep [c0] = c0 := rfl
          rw [this] at hjoin
          rw [hjoin]
          rfl
        | cons d ds =>
          have h1 : pyJoin sep ((a :: c0) :: d :: ds) =
              (a :: c0) ++ sep ++ pyJoin sep (d :: ds) := rfl
          have h2 : pyJoin sep (c0 :: d :: ds) = c0 ++ sep ++ pyJoin sep (d :: ds) := rfl
          rw [h2] at hjoin
          rw [h1]
          rw [← hjoin]
          simp

theorem infix_append_split {α : Type} {T x y : List α} (h : T <:+: x ++ y) :
    T <:+: x ∨ T <:+: y ∨
      ∃ t1 t2, T = t1 ++ t2 ∧ t1 ≠ [] ∧ t1 <:+ x ∧ t2 <+: y := by
  induction x with
  | nil =>
    rw [List.nil_append] at h
    exact Or.inr (Or.inl h)
  | cons a x ih =>
    rw [List.cons_append] at h
    rcases List.infix_cons_iff.mp h with hpre | hinf
    · rw [← List.cons_append] at hpre
      by_cases hlen : T.length ≤ (a :: x).length
      · exact Or.inl
          (( List.prefix_of_prefix_length_le hpre ( List.prefix_append (a :: x) y) hlen).isInfix)
      · push_neg at hlen
        have hax : (a :: x) <+: T :=
          List.prefix_of_prefix_length_le ( List.prefix_append (a :: x) y) hpre
            (Nat.le_of_lt hlen)
        obtain ⟨t2, ht2⟩ := hax
        have hy : t2 <+: y := by
          obtain ⟨w, hw⟩ := hpre
          rw [← ht2, List.append_assoc] at hw
          exact ⟨w, List.append_cancel_left hw⟩
        exact Or.inr (Or.inr ⟨a :: x, t2, ht2.symm, by simp, List.suffix_rfl, hy⟩)
    · rcases ih hinf with h1 | h2 | ⟨t1, t2, hT, hne, hsuf, hpre2⟩
      · exact Or.inl ( List.infix_cons h1)
      · exact Or.inr (Or.inl h2)
      · exact Or.inr (Or.inr ⟨t1, t2, hT, hne, hsuf.trans (List.suffix_cons a x), hpre2⟩)

theorem not_infix_pyJoin (T R : List Char) (hTR : T.length = R.length)
    (c1 c2 : Char) (hhd : T.head? = some c1) (hlast : T.getLast? = some c2)
    (hc1 : c1 ∉ R) (hc2 : c2 ∉ R) :
    ∀ chunks : List (List Char), (∀ c ∈ chunks, ¬ T <:+: c) →
      ¬ T <:+: pyJoin R chunks := by
  intro chunks
  induction chunks with
  | nil =>
    intro _ h
    have hT : T = [] := by simpa [pyJoin] using h
    rw [hT] at hhd
    simp at hhd
  | cons c cs ih =>
    intro hfree
    cases cs with
    | nil =>
      intro h
      exact hfree c (by simp) (by simpa [pyJoin] using h)
    | cons d ds =>
      intro h
      have hj : pyJoin R (c :: d :: ds) = c ++ (R ++ pyJoin R (d :: ds)) := by
        show c ++ R ++ pyJoin R (d :: ds) = c ++ (R ++ pyJoin R (d :: ds))
        rw [List.append_assoc]
      rw [hj] at h
      rcases infix_append_split h with h1 | h2 | ⟨t1, t2, hT, hne, hsuf, hpre⟩
      · exact hfree c (by simp) h1
      · rcases infix_append_split h2 with g1 | g2 | ⟨u1, u2, hTu, hneu, hsufu, hpreu⟩
        · have hTeq : T = R := g1.eq_of_length hTR
          have : c1 ∈ T := List.mem_of_mem_head? (by rw [hhd]; rfl)
          rw [hTeq] at this
          exact hc1 this
        · exact ih (fun x hx => hfree x (List.mem_cons_of_mem c hx)) g2
        · have hu1 : c1 ∈ u1 := by
            cases u1 with
            | nil => exact absurd rfl hneu
            | cons b bs =>
              have hb : T.head? = some b := by rw [hTu]; rfl
              rw [hhd] at hb
              have : c1 = b := by injection hb
              rw [this]
              simp
          exact hc1 (hsufu.subset hu1)
      · cases t2eq : t2 with
        | nil =>
          refine hfree c (by simp) ?_
          rw [hT, t2eq, List.append_nil]
          exact hsuf.isInfix
        | cons e es =>
          have hlast2 : t2.getLast? = some c2 := by
            rw [hT, List.getLast?_append] at hlast
            cases hgl : t2.getLast? with
            | none =>
              rw [t2eq] at hgl
              simp at hgl
            | some g =>
              rw [hgl] at hlast
              simpa using hlast
          have hc2t2 : c2 ∈ t2 := List.mem_of_mem_getLast? (by rw [hlast2]; rfl)
          by_cases hlen2 : t2.length ≤ R.length
          · have ht2R : t2 <+: R :=
              List.prefix_of_prefix_length_le hpre ( List.prefix_append R _) hlen2
            exact hc2 (ht2R.subset hc2t2)
          · push_neg at hlen2
            have hRt2 : R <+: t2 :=
              List.prefix_of_prefix_length_le ( List.prefix_append R _) hpre
                (Nat.le_of_lt hlen2)
            obtain ⟨t3, ht3⟩ := hRt2
            have hlen3 : t2.length = R.length + t3.length := by
              rw [← ht3]
              simp
            have hlenT : T.length = t1.length + t2.length := by
              rw [hT]
              simp
            have ht1 : t1.length = 0 := by omega
            exact hne (List.eq_nil_of_length_eq_zero ht1)

/-- The fixed placeholder token of the PublishingLogic library inside the
LensHub deployedBytecode (full_deploy.py line 104). -/
def tokenPublishingLogic : String := "__$1f7cbacb1f9f5d323b85b0487838426c8d$__"

/-- The fixed placeholder token of the InteractionLogic library
(full_deploy.py line 110). -/
def tokenInteractionLogic : String := "__$1e68a60ae0444699fe08192a29ecc09930$__"

/-- The fixed placeholder token of the ProfileTokenURILogic library
(full_deploy.py line 116). -/
def tokenProfileTokenURILogic : String := "__$f906f20d797116ee89ed79945048c6ad36$__"

/-- The replacement text written for a deployed library, as computed in
full_deploy.py lines 105, 111 and 117: the address with every occurrence of
0x removed and then lowercased. -/
def addrReplacement (address : String) : List Char :=
  (pyReplace ('0' :: 'x' :: []) [] address.data).map Char.toLower

/-- One placeholder substitution of full_deploy.py main: Python
bytecode.replace(token, address.replace("0x", "").lower()). -/
def patchToken (bytecode token address : String) : String :=
  String.mk (pyReplace token.data (addrReplacement address) bytecode.data)

/-- The full bytecode-patching block of full_deploy.py main (lines 100-119):
the three placeholder tokens are substituted in sequence. -/
def patchLensHubBytecode (bytecode a1 a2 a3 : String) : String :=
  patchToken
    (patchToken (patchToken bytecode tokenPublishingLogic a1) tokenInteractionLogic a2)
    tokenProfileTokenURILogic a3

/-- The hexadecimal digits, in both cases. -/
def hexChars : List Char := "0123456789abcdefABCDEF".data

/-- A canonical Ethereum address string: the prefix 0x followed by forty
hexadecimal digits. -/
def isEthAddress (a : String) : Prop :=
  ∃ hx : List Char, a.data = '0' :: 'x' :: hx ∧ hx.length = 40 ∧ ∀ c ∈ hx, c ∈ hexChars

theorem hexChars_toLower_ne_underscore : ∀ c ∈ hexChars, Char.toLower c ≠ '_' := by
  decide

theorem hexChars_ne_x : ∀ c ∈ hexChars, c ≠ 'x' := by
  decide

theorem occursIn_eq_false_iff (n l : List Char) : occursIn n l = false ↔ ¬ n <:+: l := by
  rw [Bool.eq_false_iff, Ne, occursIn_iff]

theorem addrReplacement_spec (address : String) (h : isEthAddress address) :
    (addrReplacement address).length = 40 ∧ '_' ∉ addrReplacement address := by
  obtain ⟨hx, hdata, hlen, hmem⟩ := h
  have hnox : ¬ (('0' :: 'x' :: []) <:+: hx) := by
    intro hinf
    exact hexChars_ne_x 'x' (hmem 'x' (hinf.subset (by simp))) rfl
  have hpre : ('0' :: 'x' :: []).isPrefixOf ('0' :: 'x' :: hx) = true := by
    simp [List.isPrefixOf]
  have hstrip : pyReplace ('0' :: 'x' :: []) [] address.data = hx := by
    rw [pyReplace, pySplit, hdata]
    have hf : ('0' :: 'x' :: hx).length + 1 = (hx.length + 2) + 1 := by simp
    rw [hf, pySplitF_cons_pos ('0' :: 'x' :: []) (hx.length + 2) '0' ('x' :: hx) hpre]
    have hdrop : (('0' :: 'x' :: hx).drop ('0' :: 'x' :: []).length) = hx := rfl
    rw [hdrop, pySplitF_of_absent ('0' :: 'x' :: []) (hx.length + 2) hx (by omega) hnox]
    rfl
  rw [addrReplacement, hstrip]
  constructor
  · simp [hlen]
  · intro hmm
    obtain ⟨c, hc, heq⟩ := List.mem_map.mp hmm
    exact hexChars_toLower_ne_underscore c (hmem c hc) heq

theorem patchToken_spec (bytecode token address : String)
    (h40 : token.data.length = 40)
    (hhd : token.data.head? = some '_')
    (hlast : token.data.getLast? = some '_')
    (haddr : isEthAddress address) :
    substr token (patchToken bytecode token address) = false ∧
    String.mk (pyJoin token.data (pySplit token.data bytecode.data)) = bytecode ∧
    (substr token bytecode = false → patchToken bytecode token address = bytecode) := by
  obtain ⟨hlenR, hR⟩ := addrReplacement_spec address haddr
  have hsep : token.data ≠ [] := by
    intro hh
    rw [hh] at h40
    simp at h40
  refine ⟨?_, ?_, ?_⟩
  · rw [substr, occursIn_eq_false_iff]
    have hchunks := pySplitF_chunks_clean token.data hsep (bytecode.data.length + 1)
      bytecode.data (Nat.lt_succ_self _)
    exact not_infix_pyJoin token.data (addrReplacement address) (by rw [h40, hlenR]) '_' '_'
      hhd hlast hR hR (pySplit token.data bytecode.data) hchunks
  · have := pyJoin_pySplitF token.data hsep (bytecode.data.length + 1) bytecode.data
      (Nat.lt_succ_self _)
    rw [pySplit, this]
  · intro habs
    rw [substr, occursIn_eq_false_iff] at habs
    have hsplit : pySplit token.data bytecode.data = [bytecode.data] :=
      pySplitF_of_absent token.data (bytecode.data.length + 1) bytecode.data
        (Nat.lt_succ_self _) habs
    show String.mk (pyJoin (addrReplacement address) (pySplit token.data bytecode.data)) =
      bytecode
    rw [hsplit]
    rfl

theorem patchToken_preserves (bytecode token address other : String)
    (h40 : other.data.length = 40)
    (hhd : other.data.head? = some '_')
    (hlast : other.data.getLast? = some '_')
    (haddr : isEthAddress address)
    (hsep : token.data ≠ [])
    (habs : ¬ other.data <:+: bytecode.data) :
    ¬ other.data <:+: (patchToken bytecode token address).data := by
  obtain ⟨hlenR, hR⟩ := addrReplacement_spec address haddr
  have hchunks : ∀ c ∈ pySplit token.data bytecode.data, ¬ other.data <:+: c := by
    intro c hc hinf
    exact habs (hinf.trans (pySplitF_chunks_within token.data hsep
      (bytecode.data.length + 1) bytecode.data (Nat.lt_succ_self _) c hc))
  exact not_infix_pyJoin other.data (addrReplacement address) (by rw [h40, hlenR]) '_' '_'
    hhd hlast hR hR (pySplit token.data bytecode.data) hchunks

theorem tokenPublishingLogic_shape :
    tokenPublishingLogic.data.length = 40 ∧
    tokenPublishingLogic.data.head? = some '_' ∧
    tokenPublishingLogic.data.getLast? = some '_' := by
  decide

theorem tokenInteractionLogic_shape :
    tokenInteractionLogic.data.length = 40 ∧
    tokenInteractionLogic.data.head? = some '_' ∧
    tokenInteractionLogic.data.getLast? = some '_' := by
  decide

theorem tokenProfileTokenURILogic_shape :
    tokenProfileTokenURILogic.data.length = 40 ∧
    tokenProfileTokenURILogic.data.head? = some '_' ∧
    tokenProfileTokenURILogic.data.getLast? = some '_' := by
  decide

/-- Claim C5: for each of the three library placeholder tokens, patching the
LensHub deployedBytecode with a deployed library address leaves no occurrence
of the token (first clause); the bytecode is exactly the token-free chunks of
the split rejoined with the token itself, so the patch replaces every
occurrence of the token by the lowercased, 0x-stripped address and nothing
else (second clause); a token absent from the bytecode leaves the bytecode
unchanged and raises no error (third clause); and after the full three-token
patch block none of the three tokens occurs in the result (final clause). -/
theorem patchLensHubBytecode_correct :
    (∀ (bytecode token address : String),
      token ∈ [tokenPublishingLogic, tokenInteractionLogic, tokenProfileTokenURILogic] →
      isEthAddress address →
      substr token (patchToken bytecode token address) = false ∧
      String.mk (pyJoin token.data (pySplit token.data bytecode.data)) = bytecode ∧
      (substr token bytecode = false → patchToken bytecode token address = bytecode)) ∧
    (∀ (bytecode a1 a2 a3 : String),
      isEthAddress a1 → isEthAddress a2 → isEthAddress a3 →
      ∀ token ∈ [tokenPublishingLogic, tokenInteractionLogic, tokenProfileTokenURILogic],
        substr token (patchLensHubBytecode bytecode a1 a2 a3) = false) := by
  have hsh1 := tokenPublishingLogic_shape
  have hsh2 := tokenInteractionLogic_shape
  have hsh3 := tokenProfileTokenURILogic_shape
  have hsep2 : tokenInteractionLogic.data ≠ [] := by
    intro hh
    rw [hh] at hsh2
    simp at hsh2
  have hsep3 : tokenProfileTokenURILogic.data ≠ [] := by
    intro hh
    rw [hh] at hsh3
    simp at hsh3
  constructor
  · intro bytecode token address htok haddr
    rcases List.mem_cons.mp htok with rfl | htok
    · exact patchToken_spec bytecode tokenPublishingLogic address
        hsh1.1 hsh1.2.1 hsh1.2.2 haddr
    rcases List.mem_cons.mp htok with rfl | htok
    · exact patchToken_spec bytecode tokenInteractionLogic address
        hsh2.1 hsh2.2.1 hsh2.2.2 haddr
    rcases List.mem_cons.mp htok with rfl | htok
    · exact patchToken_spec bytecode tokenProfileTokenURILogic address
        hsh3.1 hsh3.2.1 hsh3.2.2 haddr
    · simp at htok
  · intro bytecode a1 a2 a3 h1 h2 h3 token htok
    rw [substr, occursIn_eq_false_iff]
    rcases List.mem_cons.mp htok with rfl | htok
    · have s1 : ¬ tokenPublishingLogic.data <:+:
          (patchToken bytecode tokenPublishingLogic a1).data := by
        have := (patchToken_spec bytecode tokenPublishingLogic a1
          hsh1.1 hsh1.2.1 hsh1.2.2 h1).1
        rw [substr, occursIn_eq_false_iff] at this
        exact this
      have s2 := patchToken_preserves (patchToken bytecode tokenPublishingLogic a1)
        tokenInteractionLogic a2 tokenPublishingLogic hsh1.1 hsh1.2.1 hsh1.2.2 h2 hsep2 s1
      exact patchToken_preserves _ tokenProfileTokenURILogic a3 tokenPublishingLogic
        hsh1.1 hsh1.2.1 hsh1.2.2 h3 hsep3 s2
    rcases List.mem_cons.mp htok with rfl | htok
    · have s2 : ¬ tokenInteractionLogic.data <:+:
          (patchToken (patchToken bytecode tokenPublishingLogic a1)
            tokenInteractionLogic a2).data := by
        have := (patchToken_spec (patchToken bytecode tokenPublishingLogic a1)
          tokenInteractionLogic a2 hsh2.1 hsh2.2.1 hsh2.2.2 h2).1
        rw [substr, occursIn_eq_false_iff] at this
        exact this
      exact patchToken_preserves _ tokenProfileTokenURILogic a3 tokenInteractionLogic
        hsh2.1 hsh2.2.1 hsh2.2.2 h3 hsep3 s2
    rcases List.mem_cons.mp htok with rfl | htok
    · have := (patchToken_spec
        (patchToken (patchToken bytecode tokenPublishingLogic a1) tokenInteractionLogic a2)
        tokenProfileTokenURILogic a3 hsh3.1 hsh3.2.1 hsh3.2.2 h3).1
      rw [substr, occursIn_eq_false_iff] at this
      exact this
    · simp at htok

/-- A sample forty-digit library address used to witness claim C5. -/
def sampleAddress : String := "0x0123456789abcdef0123456789abcdef01234567"

/-- A sample bytecode containing one PublishingLogic placeholder. -/
def sampleBytecode : String :=
  String.mk ("6080".data ++ tokenPublishingLogic.data ++ "55fe".data)

theorem sampleAddress_isEthAddress : isEthAddress sampleAddress :=
  ⟨"0123456789abcdef0123456789abcdef01234567".data, by decide, by decide, by decide⟩

/-- Witness for claim C5 at the sample bytecode and sample address. -/
theorem patchLensHubBytecode_correct_witness :
    (substr tokenPublishingLogic
        (patchToken sampleBytecode tokenPublishingLogic sampleAddress) = false ∧
      String.mk (pyJoin tokenPublishingLogic.data
        (pySplit tokenPublishingLogic.data sampleBytecode.data)) = sampleBytecode ∧
      (substr tokenPublishingLogic sampleBytecode = false →
        patchToken sampleBytecode tokenPublishingLogic sampleAddress = sampleBytecode)) ∧
    substr tokenInteractionLogic
      (patchLensHubBytecode sampleBytecode sampleAddress sampleAddress sampleAddress) =
        false :=
  ⟨patchLensHubBytecode_correct.1 sampleBytecode tokenPublishingLogic sampleAddress
      (by simp) sampleAddress_isEthAddress,
   patchLensHubBytecode_correct.2 sampleBytecode sampleAddress sampleAddress sampleAddress
      sampleAddress_isEthAddress sampleAddress_isEthAddress sampleAddress_isEthAddress
      tokenInteractionLogic (by simp)⟩
